import Mathlib

/-!
Verification development for the member-card linker application
(a single-file Streamlit script, `src/app.py`).

The script links the UID of a 125 kHz RFID card into a semicolon-separated
member table on disk.  We give a shallow embedding of its core logic:

* serial-port auto-detection (`find_reader_port`, app.py lines 47-59),
* the bounded single-line card read (`scan_card`, lines 101-107) and the
  scan button handler (lines 109-113),
* the member table: loading (lines 76-79), email verification (lines 92-98)
  and the save/commit handler (lines 116-129).

Tables are modelled as a header list plus a list of rows of string cells
(the script reads the CSV with dtype=str and fillna, so every cell is a
string).  The disk is modelled at the table level: writing a table and
parsing it back is the identity on this representation, so a load after a
save is `load` applied to the written table.  Python string helpers used by
the script are modelled directly (`pyStrip` for str.strip, `pyLower` for
str.lower, `strIn` for substring containment).
-/

namespace Scanner

/-- Model of Python str.lower: character-wise lower-casing (ASCII). -/
def pyLower (s : String) : String := String.mk (s.data.map Char.toLower)

/-- Model of Python str.strip with no argument: remove leading and trailing
whitespace characters. -/
def pyStrip (s : String) : String :=
  String.mk (((s.data.dropWhile Char.isWhitespace).reverse.dropWhile
      Char.isWhitespace).reverse)

/-- Whether the first list is an initial segment of the second. -/
def listStartsWith : List Char → List Char → Bool
  | [], _ => true
  | _ :: _, [] => false
  | a :: as, b :: bs => a == b && listStartsWith as bs

/-- Whether the first list occurs as a contiguous sublist of the second. -/
def listHasSub (pat : List Char) : List Char → Bool
  | [] => pat.isEmpty
  | b :: bs => listStartsWith pat (b :: bs) || listHasSub pat bs

/-- Model of the Python membership test on strings: pat in s. -/
def strIn (pat s : String) : Bool := listHasSub pat.data s.data

/-- One entry of the host's serial-port enumeration, as used by the script:
device path, and the optional description and hardware-id strings (the
script guards both with an or-empty, so None is modelled as Option). -/
structure PortInfo where
  device : String
  description : Option String
  hwid : Option String
deriving DecidableEq

/-- The port test of app.py line 53.  The source lowercases the description
(line 50) and the hardware id (line 51), but line 53 consults only the
description and the device path: the lowercased hwid is computed and never
used.  A port matches when its description contains one of the three
reader-identifying substrings, or its device path contains the USB-serial
token. -/
def portMatches (p : PortInfo) : Bool :=
  let desc := pyLower (p.description.getD "")
  strIn "easyident" desc || strIn "fs-2044" desc || strIn "usb serial" desc ||
    strIn "ttyusb" (pyLower p.device)

/-- app.py lines 47-59, find_reader_port: the device path of the first
matching port of the enumeration, else a platform default chosen by
os.name (posix true models os.name == 'posix'). -/
def find_reader_port (ports : List PortInfo) (posix : Bool) : String :=
  match ports.find? portMatches with
  | some p => p.device
  | none => if posix then "/dev/ttyUSB0" else "COM6"

/-- Spec-side port test, written from the words of the specification (§4.1)
and of claim C5: a port matches when its description or its hardware id
(case-insensitively) contains one of the reader-identifying substrings, or
its device path matches the USB-serial naming pattern.  Kept separate from
the source-side portMatches so the two can be compared. -/
def specPortMatches (p : PortInfo) : Bool :=
  let desc := pyLower (p.description.getD "")
  let hw := pyLower (p.hwid.getD "")
  strIn "easyident" desc || strIn "fs-2044" desc || strIn "usb serial" desc ||
    strIn "easyident" hw || strIn "fs-2044" hw || strIn "usb serial" hw ||
    strIn "ttyusb" (pyLower p.device)

/-- Outcome of one attempt to read a line from the serial device:
either the open (or read) raises, or a line of raw bytes is obtained before
the timeout (the empty byte list models a timeout with no data, which
pyserial reports as an empty read rather than an exception). -/
inductive SerialOutcome where
  | openFail
  | line (bytes : List Nat)
deriving DecidableEq

/-- Model of bytes.decode with the ascii codec and errors='ignore':
bytes at or above 128 are dropped, the rest map to their characters. -/
def decodeAsciiIgnore (bs : List Nat) : String :=
  String.mk ((bs.filter (fun b => b < 128)).map Char.ofNat)

/-- app.py lines 101-107, scan_card: on a successful open, the line read
before the timeout is decoded (ascii, undecodable bytes dropped) and
stripped; any exception is caught and the empty string is returned, so the
call always returns and never propagates an error. -/
def scan_card : SerialOutcome → String
  | SerialOutcome.openFail => ""
  | SerialOutcome.line bs => pyStrip (decodeAsciiIgnore bs)

/-- app.py lines 109-113, the scan button handler: the session UID is
overwritten only when scan_card returned a non-empty string, otherwise the
previous session UID is kept. -/
def scanButton (uid0 : String) (o : SerialOutcome) : String :=
  let raw := scan_card o
  if raw = "" then uid0 else raw

/-- Value of the cell of a row under the first column with the given
header, or the empty string when there is no such column or the row is too
short (pandas label access; fillna makes missing cells empty strings). -/
def getCell : List String → List String → String → String
  | [], _, _ => ""
  | _ :: _, [], _ => ""
  | c :: cs, v :: vs, name => if c = name then v else getCell cs vs name

/-- Overwrite the cell of a row under the first column with the given
header; a row with no such position is returned unchanged. -/
def setCell : List String → List String → String → String → List String
  | [], vs, _, _ => vs
  | _ :: _, [], _, _ => []
  | c :: cs, v :: vs, name, w =>
      if c = name then w :: vs else v :: setCell cs vs name w

/-- The member table: ordered headers and ordered rows of string cells. -/
structure Table where
  cols : List String
  rows : List (List String)
deriving DecidableEq

/-- Shape invariant of a table read from a semicolon CSV: every row has
exactly one cell per column. -/
def Table.WF (t : Table) : Prop := ∀ r ∈ t.rows, r.length = t.cols.length

/-- The derived display name of app.py line 79: stripped Vorname, a space,
stripped Nachname. -/
def displayName (cols row : List String) : String :=
  pyStrip (getCell cols row "Vorname") ++ " " ++
    pyStrip (getCell cols row "Nachname")

/-- app.py lines 77-78: add an empty Transponder column when absent. -/
def ensureTransponder (t : Table) : Table :=
  if "Transponder" ∈ t.cols then t
  else Table.mk (t.cols ++ ["Transponder"]) (t.rows.map (fun r => r ++ [""]))

/-- app.py line 79: the assignment of the Name column.  As in pandas, an
existing Name column is overwritten in place; otherwise a Name column is
appended after the existing columns. -/
def setNameColumn (t : Table) : Table :=
  if "Name" ∈ t.cols then
    Table.mk t.cols
      (t.rows.map (fun r => setCell t.cols r "Name" (displayName t.cols r)))
  else
    Table.mk (t.cols ++ ["Name"])
      (t.rows.map (fun r => r ++ [displayName t.cols r]))

/-- app.py lines 76-79: loading the table from disk.  Cells are already
strings with empties filled (dtype=str plus fillna), then the Transponder
column is ensured and the Name column computed. -/
def load (t : Table) : Table := setNameColumn (ensureTransponder t)

/-- The comparison of app.py lines 92 and 95: the row's E-Mail cell,
stripped then lowercased, against the candidate, stripped then
lowercased. -/
def emailMatchesRow (cols row : List String) (cand : String) : Bool :=
  pyLower (pyStrip (getCell cols row "E-Mail")) == pyLower (pyStrip cand)

/-- app.py lines 93-98, the email check button: the rows whose Name cell
equals the selected name are filtered, and when that selection is
non-empty the first such row's E-Mail is compared with the candidate;
an empty selection reports a mismatch. -/
def verifyEmail (t : Table) (name cand : String) : Bool :=
  match t.rows.find? (fun r => getCell t.cols r "Name" == name) with
  | some r => emailMatchesRow t.cols r cand
  | none => false

/-- app.py lines 116-129: the UID field is stripped (line 120); when the
stripped UID is empty the save button performs no write (none); otherwise
the Transponder cell of every row whose Name cell equals the selected name
is set to the stripped UID and the whole table is the new disk content
(df.to_csv rewrites the file with the same separator and no index). -/
def commit (t : Table) (name rawUid : String) : Option Table :=
  let uid := pyStrip rawUid
  if uid = "" then none
  else some (Table.mk t.cols (t.rows.map (fun r =>
    if getCell t.cols r "Name" = name then setCell t.cols r "Transponder" uid
    else r)))

/-- The operator-controlled inputs of one session turn: the selected name,
the email field and the UID field. -/
structure SessionInputs where
  name : String
  email : String
  uidField : String

/-- The save button of app.py lines 123-129 as a disk transformer over the
session inputs: the loaded table is updated and written when the stripped
UID field is non-empty (flag true), otherwise the disk is untouched
(flag false, the error message path).  The handler reads only the selected
name and the UID field. -/
def saveAction (disk : Table) (inp : SessionInputs) : Table × Bool :=
  match commit (load disk) inp.name inp.uidField with
  | some t2 => (t2, true)
  | none => (disk, false)

/-- The email check of app.py lines 93-98 over the session inputs; its
result is only displayed, never stored. -/
def emailCheckAction (disk : Table) (inp : SessionInputs) : Bool :=
  verifyEmail (load disk) inp.name inp.email

/-! ### Basic lemmas about cell access and row shape -/

theorem setCell_length :
    ∀ (cols r : List String) (c w : String),
      (setCell cols r c w).length = r.length := by
  intro cols
  induction cols with
  | nil => intro r c w; rfl
  | cons c0 cs ih =>
    intro r c w
    cases r with
    | nil => rfl
    | cons v vs =>
      by_cases h : c0 = c
      · simp [setCell, h]
      · simp [setCell, h, ih]

theorem getCell_setCell_ne :
    ∀ (cols r : List String) (c c' w : String), c' ≠ c →
      getCell cols (setCell cols r c w) c' = getCell cols r c' := by
  intro cols
  induction cols with
  | nil => intro r c c' w _; rfl
  | cons c0 cs ih =>
    intro r c c' w hne
    cases r with
    | nil => simp [setCell, getCell]
    | cons v vs =>
      by_cases h : c0 = c
      · subst h
        have h' : c0 ≠ c' := fun h'' => hne h''.symm
        simp [setCell, getCell, h']
      · by_cases h2 : c0 = c'
        · subst h2
          simp [setCell, getCell, h]
        · simp [setCell, getCell, h, h2, ih vs c c' w hne]

theorem getCell_setCell_self :
    ∀ (cols r : List String) (c w : String), c ∈ cols →
      cols.length ≤ r.length →
      getCell cols (setCell cols r c w) c = w := by
  intro cols
  induction cols with
  | nil => intro r c w hmem; exact absurd hmem (List.not_mem_nil c)
  | cons c0 cs ih =>
    intro r c w hmem hlen
    cases r with
    | nil => simp at hlen
    | cons v vs =>
      by_cases h : c0 = c
      · simp [setCell, getCell, h]
      · have hmem' : c ∈ cs := by
          cases List.mem_cons.mp hmem with
          | inl h' => exact absurd h'.symm h
          | inr h' => exact h'
        have hlen' : cs.length ≤ vs.length := by
          simpa using Nat.le_of_succ_le_succ hlen
        simp [setCell, getCell, h, ih vs c w hmem' hlen']

theorem setCell_getCell :
    ∀ (cols r : List String) (c : String),
      setCell cols r c (getCell cols r c) = r := by
  intro cols
  induction cols with
  | nil => intro r c; rfl
  | cons c0 cs ih =>
    intro r c
    cases r with
    | nil => rfl
    | cons v vs =>
      by_cases h : c0 = c
      · simp [setCell, getCell, h]
      · simp [setCell, getCell, h, ih]

theorem getCell_not_mem :
    ∀ (cols r : List String) (c : String), c ∉ cols →
      getCell cols r c = "" := by
  intro cols
  induction cols with
  | nil => intro r c _; rfl
  | cons c0 cs ih =>
    intro r c hmem
    cases r with
    | nil => rfl
    | cons v vs =>
      have h1 : c0 ≠ c := fun h => hmem (h ▸ List.mem_cons_self c0 cs)
      have h2 : c ∉ cs := fun h => hmem (List.mem_cons_of_mem c0 h)
      simp [getCell, h1, ih vs c h2]

theorem getCell_append :
    ∀ (cols r : List String) (cols' r' : List String) (c : String),
      r.length = cols.length →
      getCell (cols ++ cols') (r ++ r') c =
        if c ∈ cols then getCell cols r c else getCell cols' r' c := by
  intro cols
  induction cols with
  | nil =>
    intro r cols' r' c hlen
    have : r = [] := List.eq_nil_of_length_eq_zero hlen
    subst this
    simp
  | cons c0 cs ih =>
    intro r cols' r' c hlen
    cases r with
    | nil => simp at hlen
    | cons v vs =>
      have hlen' : vs.length = cs.length := by simpa using hlen
      by_cases h : c0 = c
      · subst h
        simp [getCell, List.mem_cons]
      · have hL : getCell ((c0 :: cs) ++ cols') ((v :: vs) ++ r') c =
            getCell (cs ++ cols') (vs ++ r') c := by
          simp [getCell, h]
        have hR : getCell (c0 :: cs) (v :: vs) c = getCell cs vs c := by
          simp [getCell, h]
        rw [hL, ih vs cols' r' c hlen', hR]
        by_cases hm : c ∈ cs
        · simp [hm, List.mem_cons_of_mem c0 hm]
        · have hnm : c ∉ c0 :: cs := by
            intro hx
            cases List.mem_cons.mp hx with
            | inl hx' => exact h hx'.symm
            | inr hx' => exact hm hx'
          simp [hm, hnm]

/-- Appending one fresh column and one cell to a full row changes no other
cell. -/
theorem getCell_extend (cols r : List String) (c cnew v : String)
    (hlen : r.length = cols.length) (hne : c ≠ cnew) :
    getCell (cols ++ [cnew]) (r ++ [v]) c = getCell cols r c := by
  rw [getCell_append cols r [cnew] [v] c hlen]
  by_cases hm : c ∈ cols
  · simp [hm]
  · have h1 : cnew ≠ c := fun h => hne h.symm
    simp [hm, getCell, h1, getCell_not_mem cols r c hm]

theorem displayName_setCell_ne (cols r : List String) (c w : String)
    (h1 : ("Vorname" : String) ≠ c) (h2 : ("Nachname" : String) ≠ c) :
    displayName cols (setCell cols r c w) = displayName cols r := by
  unfold displayName
  rw [getCell_setCell_ne cols r c "Vorname" w h1,
    getCell_setCell_ne cols r c "Nachname" w h2]

theorem displayName_extend (cols r : List String) (cnew v : String)
    (hlen : r.length = cols.length)
    (h1 : ("Vorname" : String) ≠ cnew) (h2 : ("Nachname" : String) ≠ cnew) :
    displayName (cols ++ [cnew]) (r ++ [v]) = displayName cols r := by
  unfold displayName
  rw [getCell_extend cols r "Vorname" cnew v hlen h1,
    getCell_extend cols r "Nachname" cnew v hlen h2]

theorem map_id_of_mem {α : Type} (l : List α) (f : α → α)
    (h : ∀ a ∈ l, f a = a) : l.map f = l := by
  induction l with
  | nil => rfl
  | cons a as ih =>
    simp only [List.map_cons, h a (List.mem_cons_self a as),
      ih (fun b hb => h b (List.mem_cons_of_mem a hb))]

theorem find_append_first {α : Type} (f : α → Bool) (l1 l2 : List α) (p : α)
    (h1 : ∀ q ∈ l1, f q = false) (h2 : f p = true) :
    (l1 ++ p :: l2).find? f = some p := by
  induction l1 with
  | nil => simp [List.find?, h2]
  | cons q l1' ih =>
    have hq : f q = false := h1 q (List.mem_cons_self q l1')
    simp only [List.cons_append, List.find?, hq]
    exact ih (fun x hx => h1 x (List.mem_cons_of_mem q hx))

/-! ### Lemmas about loading -/

theorem ensureTransponder_WF (t : Table) (h : t.WF) :
    (ensureTransponder t).WF := by
  unfold ensureTransponder
  by_cases hm : "Transponder" ∈ t.cols
  · simpa [hm]
  · simp only [hm, if_false]
    intro r hr
    rcases List.mem_map.mp hr with ⟨x, hx, rfl⟩
    simp [h x hx]

theorem setNameColumn_WF (t : Table) (h : t.WF) :
    (setNameColumn t).WF := by
  unfold setNameColumn
  by_cases hm : "Name" ∈ t.cols
  · simp only [hm, if_true]
    intro r hr
    rcases List.mem_map.mp hr with ⟨x, hx, rfl⟩
    simp [Table.WF, setCell_length, h x hx]
  · simp only [hm, if_false]
    intro r hr
    rcases List.mem_map.mp hr with ⟨x, hx, rfl⟩
    simp [h x hx]

theorem load_WF (t : Table) (h : t.WF) : (load t).WF :=
  setNameColumn_WF (ensureTransponder t) (ensureTransponder_WF t h)

theorem ensureTransponder_mem (t : Table) :
    "Transponder" ∈ (ensureTransponder t).cols := by
  unfold ensureTransponder
  by_cases hm : "Transponder" ∈ t.cols
  · simp [hm]
  · simp [hm]

theorem setNameColumn_mem_name (t : Table) :
    "Name" ∈ (setNameColumn t).cols := by
  unfold setNameColumn
  by_cases hm : "Name" ∈ t.cols
  · simp [hm]
  · simp [hm]

theorem setNameColumn_mem_of_mem (t : Table) (c : String)
    (h : c ∈ t.cols) : c ∈ (setNameColumn t).cols := by
  unfold setNameColumn
  by_cases hm : "Name" ∈ t.cols
  · simpa [hm]
  · simp [hm, List.mem_append, h]

theorem load_transponder_mem (t : Table) :
    "Transponder" ∈ (load t).cols :=
  setNameColumn_mem_of_mem (ensureTransponder t) "Transponder"
    (ensureTransponder_mem t)

theorem load_name_mem (t : Table) : "Name" ∈ (load t).cols :=
  setNameColumn_mem_name (ensureTransponder t)

/-- After setNameColumn on a well-formed table, every row's Name cell holds
exactly its recomputed display name. -/
theorem setNameColumn_name_eq (t : Table) (h : t.WF) :
    ∀ r ∈ (setNameColumn t).rows,
      getCell (setNameColumn t).cols r "Name" =
        displayName (setNameColumn t).cols r := by
  unfold setNameColumn
  by_cases hm : "Name" ∈ t.cols
  · simp only [hm, if_true]
    intro r hr
    rcases List.mem_map.mp hr with ⟨x, hx, rfl⟩
    have hlen : t.cols.length ≤ x.length := le_of_eq (h x hx).symm
    rw [getCell_setCell_self t.cols x "Name" (displayName t.cols x) hm hlen,
      displayName_setCell_ne t.cols x "Name" (displayName t.cols x)
        (by decide) (by decide)]
  · simp only [hm, if_false]
    intro r hr
    rcases List.mem_map.mp hr with ⟨x, hx, rfl⟩
    have hlen : x.length = t.cols.length := h x hx
    rw [getCell_append t.cols x ["Name"] [displayName t.cols x] "Name" hlen,
      displayName_extend t.cols x "Name" (displayName t.cols x) hlen
        (by decide) (by decide)]
    simp [hm, getCell]

theorem load_name_eq (t : Table) (h : t.WF) :
    ∀ r ∈ (load t).rows,
      getCell (load t).cols r "Name" = displayName (load t).cols r :=
  setNameColumn_name_eq (ensureTransponder t) (ensureTransponder_WF t h)

/-- A successful commit means the stripped UID was non-empty, and the
result is the row-wise update of the input table. -/
theorem commit_eq_some (t : Table) (name rawUid : String) (t' : Table)
    (h : commit t name rawUid = some t') :
    pyStrip rawUid ≠ "" ∧
    t' = Table.mk t.cols (t.rows.map (fun r =>
      if getCell t.cols r "Name" = name then
        setCell t.cols r "Transponder" (pyStrip rawUid) else r)) := by
  by_cases hu : pyStrip rawUid = ""
  · simp [commit, hu] at h
  · simp only [commit, hu, if_false, Option.some.injEq] at h
    exact ⟨hu, h.symm⟩

/-! ### The claims -/

/-- Claim C3: a commit attempted with an empty UID performs no write
(returns none, the EmptyUID error path of app.py line 129), and whenever a
commit does write (returns some table), its UID was non-empty. -/
theorem c3_empty_uid_no_write (t : Table) (d u : String)
    (h : commit t d u ≠ none) :
    commit t d "" = none ∧ u ≠ "" := by
  have h0 : pyStrip "" = "" := by decide
  constructor
  · simp [commit, h0]
  · intro hu
    subst hu
    exact h (by simp [commit, h0])

/-- Witness for C3 at a concrete table and UID. -/
theorem c3_witness :
    commit (Table.mk ["Name", "Transponder"] [["x", "old"]]) "x" "" = none ∧
      ("A1" : String) ≠ "" :=
  c3_empty_uid_no_write (Table.mk ["Name", "Transponder"] [["x", "old"]])
    "x" "A1" (by decide)

/-- Claim C4: a card read yields a non-empty UID exactly when a line was
obtained before the timeout whose ascii-decode (undecodable bytes dropped)
strips to a non-empty string; an open failure and a timeout with no data
both return the empty string, and the open failure path returns normally
rather than crashing the session. -/
theorem c4_scan_result (o : SerialOutcome) :
    (scan_card o ≠ "" ↔
      ∃ bs, o = SerialOutcome.line bs ∧
        pyStrip (decodeAsciiIgnore bs) ≠ "") ∧
    scan_card SerialOutcome.openFail = "" ∧
    scan_card (SerialOutcome.line []) = "" := by
  refine ⟨?_, rfl, by decide⟩
  cases o with
  | openFail => simp [scan_card]
  | line bs => simp [scan_card]

/-- Claim C6: email verification of one row returns true exactly when the
row's stored E-Mail, stripped and case-folded, equals the candidate,
stripped and case-folded; in particular a padded upper-case candidate
matches a stored lower-case address. -/
theorem c6_email_iff (cols row : List String) (cand : String) :
    (emailMatchesRow cols row cand = true ↔
      pyLower (pyStrip (getCell cols row "E-Mail")) =
        pyLower (pyStrip cand)) ∧
    emailMatchesRow ["E-Mail"] ["a@b.com"] " A@B.com " = true := by
  constructor
  · simp [emailMatchesRow]
  · decide

/-- Claim C7: the save step reads only the selected name and the UID
field; two session turns that differ only in the email field (and hence in
whether verification succeeded, failed, or was never attempted) produce
the same save result on disk. -/
theorem c7_save_independent_of_email (disk : Table) (n e1 e2 u : String) :
    saveAction disk (SessionInputs.mk n e1 u) =
      saveAction disk (SessionInputs.mk n e2 u) := rfl

/-- Claim C10: a failed scan (open error, timeout, or a line that strips
to the empty string) leaves the stored session UID unchanged. -/
theorem c10_failed_scan_preserves_uid (uid0 : String) (o : SerialOutcome)
    (h : scan_card o = "") : scanButton uid0 o = uid0 := by
  simp [scanButton, h]

/-- Witness for C10: a whitespace-only line preserves a previously stored
UID. -/
theorem c10_witness :
    scan_card (SerialOutcome.line [32, 13, 10]) = "" ∧
      scanButton "04A1B2C3" (SerialOutcome.line [32, 13, 10]) = "04A1B2C3" :=
  ⟨by decide,
    c10_failed_scan_preserves_uid "04A1B2C3"
      (SerialOutcome.line [32, 13, 10]) (by decide)⟩

/-- Claim C5 counterexample: a port whose hardware id contains a
reader-identifying substring but whose description does not is NOT matched
by the source resolver (line 53 never consults the hwid computed on line
51), so the resolver falls back to the platform default instead of
returning that port's device path as the claim states. -/
theorem c5_cex :
    specPortMatches (PortInfo.mk "/dev/foo" (some "unrelated device")
      (some "EasyIdent FS-2044")) = true ∧
    portMatches (PortInfo.mk "/dev/foo" (some "unrelated device")
      (some "EasyIdent FS-2044")) = false ∧
    find_reader_port [PortInfo.mk "/dev/foo" (some "unrelated device")
      (some "EasyIdent FS-2044")] true = "/dev/ttyUSB0" ∧
    ("/dev/ttyUSB0" : String) ≠ "/dev/foo" :=
  ⟨by decide, by decide, by decide, by decide⟩

/-- Claim C5 (amended): the resolver returns the device path of the first
port whose description (case-insensitively) contains one of the
reader-identifying substrings or whose device path contains the
USB-serial token — the hardware id is not consulted — and when no port
matches it returns the fixed platform default instead of failing; a
matching port is preferred over the default whenever one is present. -/
theorem c5_resolver_amended (posix : Bool) (l1 l2 : List PortInfo)
    (p : PortInfo)
    (h1 : ∀ q ∈ l1, portMatches q = false) (h2 : portMatches p = true) :
    find_reader_port (l1 ++ p :: l2) posix = p.device ∧
    ∀ ports : List PortInfo, (∀ q ∈ ports, portMatches q = false) →
      find_reader_port ports posix =
        if posix then "/dev/ttyUSB0" else "COM6" := by
  constructor
  · unfold find_reader_port
    rw [find_append_first portMatches l1 l2 p h1 h2]
  · intro ports hall
    unfold find_reader_port
    have hnone : ports.find? portMatches = none := by
      rw [List.find?_eq_none]
      intro x hx
      simp [hall x hx]
    rw [hnone]

/-- Witness for C5: a matching port after a non-matching one is preferred
over the platform default. -/
theorem c5_witness :
    find_reader_port
      [PortInfo.mk "COM3" (some "Bluetooth Device") none,
        PortInfo.mk "COM7" (some "USB Serial Port") (some "")] false =
      "COM7" :=
  (c5_resolver_amended false [PortInfo.mk "COM3" (some "Bluetooth Device") none]
    [] (PortInfo.mk "COM7" (some "USB Serial Port") (some ""))
    (by decide) (by decide)).1

/-- Claim C9: when several rows carry the selected display name, email
verification consults only the first matching row: its value is exactly
the comparison against that first row's E-Mail cell, whatever the later
rows hold. -/
theorem c9_first_match_only (cols : List String) (l1 l2 : List (List String))
    (r : List String) (name cand : String)
    (h1 : ∀ q ∈ l1, getCell cols q "Name" ≠ name)
    (h2 : getCell cols r "Name" = name) :
    verifyEmail (Table.mk cols (l1 ++ r :: l2)) name cand =
      emailMatchesRow cols r cand := by
  unfold verifyEmail
  have hfind : (l1 ++ r :: l2).find?
      (fun q => getCell cols q "Name" == name) = some r := by
    apply find_append_first
    · intro q hq
      simp [h1 q hq]
    · simp [h2]
  rw [hfind]

/-- Witness for C9: with two rows sharing the name, verification returns
true because the first row's email matches, although the second row's
email differs from the candidate. -/
theorem c9_witness :
    verifyEmail (Table.mk ["Vorname", "Nachname", "E-Mail", "Name"]
        [["Max", "Mueller", "max1@x.de", "Max Mueller"],
          ["Max", "Mueller", "other@x.de", "Max Mueller"]])
      "Max Mueller" " MAX1@X.DE " = true :=
  Eq.trans
    (c9_first_match_only ["Vorname", "Nachname", "E-Mail", "Name"] []
      [["Max", "Mueller", "other@x.de", "Max Mueller"]]
      ["Max", "Mueller", "max1@x.de", "Max Mueller"] "Max Mueller"
      " MAX1@X.DE " (by decide) (by decide))
    (by decide)

/-- Claim C8: a commit that writes keeps the column list and the number
and order of rows of the table it rewrites; a row whose Name cell differs
from the selected name is written back unchanged, and in every row each
cell under a column other than Transponder keeps its value. -/
theorem c8_commit_frame (t : Table) (d u : String) (t' : Table)
    (h : commit t d u = some t') :
    t'.cols = t.cols ∧
    t'.rows.length = t.rows.length ∧
    ∀ (i : Nat) (r r' : List String),
      t.rows[i]? = some r → t'.rows[i]? = some r' →
      (getCell t.cols r "Name" ≠ d → r' = r) ∧
      ∀ c : String, c ≠ "Transponder" →
        getCell t.cols r' c = getCell t.cols r c := by
  obtain ⟨hu, ht'⟩ := commit_eq_some t d u t' h
  subst ht'
  refine ⟨rfl, by simp, ?_⟩
  intro i r r' hr hr'
  simp only [List.getElem?_map, hr, Option.map_some'] at hr'
  have hr'' : r' =
      (if getCell t.cols r "Name" = d then
        setCell t.cols r "Transponder" (pyStrip u) else r) :=
    (Option.some.inj hr').symm
  by_cases hd : getCell t.cols r "Name" = d
  · subst hr''
    refine ⟨fun hne => absurd hd hne, ?_⟩
    intro c hc
    rw [if_pos hd,
      getCell_setCell_ne t.cols r "Transponder" c (pyStrip u) hc]
  · subst hr''
    rw [if_neg hd]
    exact ⟨fun _ => rfl, fun c _ => rfl⟩

/-- Witness for C8 at a concrete commit: the column list is preserved. -/
theorem c8_witness :
    (Table.mk ["Vorname", "Nachname", "E-Mail", "Transponder", "Name"]
        [["Anna", "Muster", "a@m.de", "X2", "Anna Muster"]]).cols =
      (Table.mk ["Vorname", "Nachname", "E-Mail", "Transponder", "Name"]
        [["Anna", "Muster", "a@m.de", "X1", "Anna Muster"]]).cols :=
  (c8_commit_frame
    (Table.mk ["Vorname", "Nachname", "E-Mail", "Transponder", "Name"]
      [["Anna", "Muster", "a@m.de", "X1", "Anna Muster"]])
    "Anna Muster" "X2"
    (Table.mk ["Vorname", "Nachname", "E-Mail", "Transponder", "Name"]
      [["Anna", "Muster", "a@m.de", "X2", "Anna Muster"]])
    (by decide)).1

/-- Claim C1 counterexample: on a disk table without a Name column — the
column layout the script's own header comment describes — a load followed
by a no-op commit does not reproduce the column set: the derived Name
column is persisted, because line 79 adds it to the frame and line 126
writes every column. -/
theorem c1_cex :
    commit (load (Table.mk ["Vorname", "Nachname", "E-Mail", "Transponder"]
        [["Anna", "Muster", "a@m.de", "X1"]])) "Anna Muster" "X1" =
      some (Table.mk ["Vorname", "Nachname", "E-Mail", "Transponder", "Name"]
        [["Anna", "Muster", "a@m.de", "X1", "Anna Muster"]]) ∧
    (["Vorname", "Nachname", "E-Mail", "Transponder", "Name"] :
        List String) ≠
      ["Vorname", "Nachname", "E-Mail", "Transponder"] :=
  ⟨by decide, by decide⟩

/-- Claim C1 (amended): for a disk table that already stores the
Transponder column and a Name column whose cells equal the recomputed
display names, a load followed by a commit whose (already stripped,
non-empty) UID equals the stored Transponder of every matched row writes
back exactly the original table: column set, column order and row order
are reproduced on disk.  (For a table missing those columns the rewrite
instead appends them, as the counterexample shows.) -/
theorem c1_roundtrip_amended (t : Table) (d u : String)
    (hT : "Transponder" ∈ t.cols) (hN : "Name" ∈ t.cols)
    (hname : ∀ r ∈ t.rows, getCell t.cols r "Name" = displayName t.cols r)
    (hu : pyStrip u = u) (hne : u ≠ "")
    (hmatch : ∀ r ∈ t.rows, getCell t.cols r "Name" = d →
      getCell t.cols r "Transponder" = u) :
    commit (load t) d u = some t := by
  obtain ⟨cols, rows⟩ := t
  simp only at hT hN hname hmatch
  have hload : load (Table.mk cols rows) = Table.mk cols rows := by
    unfold load ensureTransponder
    rw [if_pos hT]
    unfold setNameColumn
    rw [if_pos hN]
    have hmap : rows.map
        (fun r => setCell cols r "Name" (displayName cols r)) = rows := by
      apply map_id_of_mem
      intro r hr
      rw [← hname r hr]
      exact setCell_getCell cols r "Name"
    rw [hmap]
  rw [hload]
  simp only [commit, hu, hne, if_false, Option.some.injEq]
  have hmap2 : rows.map (fun r =>
      if getCell cols r "Name" = d then setCell cols r "Transponder" u
      else r) = rows := by
    apply map_id_of_mem
    intro r hr
    by_cases hd : getCell cols r "Name" = d
    · rw [if_pos hd, ← hmatch r hr hd]
      exact setCell_getCell cols r "Transponder"
    · rw [if_neg hd]
  rw [hmap2]

/-- Witness for C1 at a concrete table that already stores Name and
Transponder columns. -/
theorem c1_witness :
    commit (load (Table.mk
        ["Vorname", "Nachname", "E-Mail", "Transponder", "Name"]
        [["Anna", "Muster", "a@m.de", "X1", "Anna Muster"]]))
      "Anna Muster" "X1" =
      some (Table.mk ["Vorname", "Nachname", "E-Mail", "Transponder", "Name"]
        [["Anna", "Muster", "a@m.de", "X1", "Anna Muster"]]) :=
  c1_roundtrip_amended
    (Table.mk ["Vorname", "Nachname", "E-Mail", "Transponder", "Name"]
      [["Anna", "Muster", "a@m.de", "X1", "Anna Muster"]])
    "Anna Muster" "X1" (by decide) (by decide) (by decide) (by decide)
    (by decide) (by decide)

/-- Claim C2 counterexample: the claim quantifies over every non-empty UID
string and asks for Transponder == trim(u) after the commit; for the
non-empty, whitespace-only UID the save handler checks the stripped value
(lines 120 and 124) and performs no write, so the reloaded table still
carries the old Transponder value, which differs from trim(u) = "". -/
theorem c2_cex :
    (" " : String) ≠ "" ∧
    commit (load (Table.mk ["Vorname", "Nachname", "E-Mail", "Transponder"]
      [["Anna", "Muster", "a@m.de", "OLD"]])) "Anna Muster" " " = none ∧
    (∃ r ∈ (load (Table.mk ["Vorname", "Nachname", "E-Mail", "Transponder"]
        [["Anna", "Muster", "a@m.de", "OLD"]])).rows,
      displayName (load (Table.mk ["Vorname", "Nachname", "E-Mail",
        "Transponder"] [["Anna", "Muster", "a@m.de", "OLD"]])).cols r =
          "Anna Muster" ∧
      getCell (load (Table.mk ["Vorname", "Nachname", "E-Mail",
        "Transponder"] [["Anna", "Muster", "a@m.de", "OLD"]])).cols r
          "Transponder" ≠ pyStrip " ") :=
  ⟨by decide, by decide, by decide⟩

/-- Claim C2 (amended): for every well-formed disk table, selected display
name d and UID string whose stripped form is non-empty (so the commit
writes), reloading the written table yields a table in which every row
whose display name equals d carries the stripped UID in its Transponder
cell — in particular all rows sharing d receive the same UID. -/
theorem c2_commit_then_load_amended (T : Table) (d u : String) (t' : Table)
    (hWF : T.WF) (h : commit (load T) d u = some t') :
    ∀ r ∈ (load t').rows,
      displayName (load t').cols r = d →
      getCell (load t').cols r "Transponder" = pyStrip u := by
  obtain ⟨hu, ht'⟩ := commit_eq_some (load T) d u t' h
  have htW : (load T).WF := load_WF T hWF
  have htT : "Transponder" ∈ (load T).cols := load_transponder_mem T
  have htN : "Name" ∈ (load T).cols := load_name_mem T
  have htname := load_name_eq T hWF
  have ht'cols : t'.cols = (load T).cols := by rw [ht']
  have ht'rows : t'.rows = (load T).rows.map (fun r =>
      if getCell (load T).cols r "Name" = d then
        setCell (load T).cols r "Transponder" (pyStrip u) else r) := by
    rw [ht']
  have ht'T : "Transponder" ∈ t'.cols := ht'cols ▸ htT
  have ht'N : "Name" ∈ t'.cols := ht'cols ▸ htN
  have hens : ensureTransponder t' = t' := by
    unfold ensureTransponder
    rw [if_pos ht'T]
  have hload : load t' = Table.mk t'.cols (t'.rows.map (fun r =>
      setCell t'.cols r "Name" (displayName t'.cols r))) := by
    unfold load
    rw [hens]
    unfold setNameColumn
    rw [if_pos ht'N]
  rw [hload]
  intro r hr
  simp only [List.mem_map] at hr
  obtain ⟨y, hy, rfl⟩ := hr
  rw [ht'rows] at hy
  simp only [List.mem_map] at hy
  obtain ⟨x, hx, rfl⟩ := hy
  simp only [ht'cols]
  have hdn_set_name : ∀ (z : List String) (w : String),
      displayName (load T).cols (setCell (load T).cols z "Name" w) =
        displayName (load T).cols z :=
    fun z w => displayName_setCell_ne (load T).cols z "Name" w
      (by decide) (by decide)
  have htr_set_name : ∀ (z : List String) (w : String),
      getCell (load T).cols (setCell (load T).cols z "Name" w)
          "Transponder" =
        getCell (load T).cols z "Transponder" :=
    fun z w => getCell_setCell_ne (load T).cols z "Name" "Transponder" w
      (by decide)
  by_cases hd : getCell (load T).cols x "Name" = d
  · intro hdname
    rw [if_pos hd, htr_set_name]
    exact getCell_setCell_self (load T).cols x "Transponder" (pyStrip u)
      htT (le_of_eq (htW x hx).symm)
  · intro hdname
    rw [if_neg hd, hdn_set_name] at hdname
    exact absurd ((htname x hx).trans hdname) hd

/-- Witness for C2 at a concrete table, with a padded UID that the commit
strips. -/
theorem c2_witness :
    (Table.mk ["Vorname", "Nachname", "E-Mail", "Transponder"]
      [["Anna", "Muster", "a@m.de", ""]]).WF ∧
    commit (load (Table.mk ["Vorname", "Nachname", "E-Mail", "Transponder"]
        [["Anna", "Muster", "a@m.de", ""]])) "Anna Muster" " 04A1B2C3 " =
      some (Table.mk ["Vorname", "Nachname", "E-Mail", "Transponder", "Name"]
        [["Anna", "Muster", "a@m.de", "04A1B2C3", "Anna Muster"]]) ∧
    (∀ r ∈ (load (Table.mk
        ["Vorname", "Nachname", "E-Mail", "Transponder", "Name"]
        [["Anna", "Muster", "a@m.de", "04A1B2C3", "Anna Muster"]])).rows,
      displayName (load (Table.mk
        ["Vorname", "Nachname", "E-Mail", "Transponder", "Name"]
        [["Anna", "Muster", "a@m.de", "04A1B2C3", "Anna Muster"]])).cols r =
          "Anna Muster" →
      getCell (load (Table.mk
        ["Vorname", "Nachname", "E-Mail", "Transponder", "Name"]
        [["Anna", "Muster", "a@m.de", "04A1B2C3", "Anna Muster"]])).cols r
          "Transponder" = pyStrip " 04A1B2C3 ") :=
  ⟨by unfold Table.WF; decide, by decide,
    c2_commit_then_load_amended
      (Table.mk ["Vorname", "Nachname", "E-Mail", "Transponder"]
        [["Anna", "Muster", "a@m.de", ""]])
      "Anna Muster" " 04A1B2C3 "
      (Table.mk ["Vorname", "Nachname", "E-Mail", "Transponder", "Name"]
        [["Anna", "Muster", "a@m.de", "04A1B2C3", "Anna Muster"]])
      (by unfold Table.WF; decide) (by decide)⟩

end Scanner
